import Mathlib

/-!
Verification development for the Video-Splitter repository
(src/video_splitter.py).

The file embeds the two core functions of the source:

* `parse_timestamp_ranges` (source lines 172-238): a character-level
  model of the string parser, including the regex scan performed by
  `re.findall` with the pattern
  `\(\s*(-?(?:[0-9]+\.?[0-9]*|\.[0-9]+))\s*,\s*(-?(?:[0-9]+\.?[0-9]*|\.[0-9]+))\s*\)`.
  For this pattern a failed greedy match cannot be rescued by
  backtracking (every shorter candidate for a number group leaves a
  digit or a dot where the regex next requires a comma, a closing
  parenthesis or whitespace), so the scan is modelled as a single
  greedy left-to-right pass.  Numbers are modelled as exact rationals:
  the numeric literals the pattern can capture are finite decimal
  strings, and all comparisons the source performs on them (`< 0`,
  `>=`) are exact on those literals.

* `split_and_combine_video` (source lines 81-169): the orchestration
  logic, modelled over an abstract media collaborator.  Collaborator
  calls are recorded in an event trace so that resource acquisition
  and release are observable; failures of the collaborator are
  injected through the `Collab` record.  The path/permission checks of
  lines 104-106 are external I/O glue and are outside the modelled
  core; the numeric type check of lines 113-115 is structural in this
  typed embedding (ranges are pairs of rationals by type).
-/

deriving instance DecidableEq for Except

/-- ASCII whitespace as recognized both by Python `str.strip()` and by the
regex class `\s` (the inputs of interest are ASCII). -/
def isWs (c : Char) : Bool :=
  c == ' ' || c == '\t' || c == '\n' || c == '\r' || c == '\x0b' || c == '\x0c'

/-- Python `str.strip()` on a list of characters (source line 190). -/
def pyTrim (cs : List Char) : List Char :=
  ((cs.dropWhile isWs).reverse.dropWhile isWs).reverse

/-- Greedy run of decimal digits: returns the maximal digit prefix and the
rest, as matched by `[0-9]+` / `[0-9]*` in the pattern. -/
def takeDigits : List Char → List Char × List Char
  | [] => ([], [])
  | c :: rest =>
    if c.isDigit then
      let p := takeDigits rest
      (c :: p.1, p.2)
    else ([], c :: rest)

/-- Body of the number group without the sign:
`[0-9]+\.?[0-9]*|\.[0-9]+` matched greedily.  Returns the captured
characters and the rest of the input, or `none` when no number starts
here. -/
def numBody (cs : List Char) : Option (List Char × List Char) :=
  match cs with
  | [] => none
  | c :: rest =>
    if c.isDigit then
      match (takeDigits rest).2 with
      | '.' :: r2 => some (c :: (takeDigits rest).1 ++ '.' :: (takeDigits r2).1, (takeDigits r2).2)
      | _ => some (c :: (takeDigits rest).1, (takeDigits rest).2)
    else if c == '.' then
      match rest with
      | [] => none
      | d :: _ =>
        if d.isDigit then some ('.' :: (takeDigits rest).1, (takeDigits rest).2)
        else none
    else none

/-- The full number group `-?(?:[0-9]+\.?[0-9]*|\.[0-9]+)`; the capture
includes the sign. -/
def pyNum (cs : List Char) : Option (List Char × List Char) :=
  match cs with
  | '-' :: rest =>
    match numBody rest with
    | some (n, r) => some ('-' :: n, r)
    | none => none
  | _ => numBody cs

/-- The regex piece `\s*`. -/
def skipWs (cs : List Char) : List Char := cs.dropWhile isWs

/-- Consume one expected literal character, as the regex pieces `\(`,
`,` and `\)` do. -/
def expectChar (ch : Char) : List Char → Option (List Char)
  | [] => none
  | c :: rest => if c = ch then some rest else none

/-- Attempt to match the whole tuple pattern
`\( \s* num \s* , \s* num \s* \)` at the head of the input.  On success
returns the two captured number strings and the rest of the input after
the closing parenthesis. -/
def tryTuple (cs : List Char) : Option ((List Char × List Char) × List Char) :=
  (expectChar '(' cs).bind fun r0 =>
    (pyNum (skipWs r0)).bind fun p1 =>
      (expectChar ',' (skipWs p1.2)).bind fun r2 =>
        (pyNum (skipWs r2)).bind fun p2 =>
          (expectChar ')' (skipWs p2.2)).map fun r4 => ((p1.1, p2.1), r4)

/-- Fuelled left-to-right scan implementing `re.findall` for the tuple
pattern: at each position try to match a tuple; on success continue after
it, otherwise advance one character.  Each successful match consumes at
least the opening parenthesis (`tryTuple_len` below), so fuel equal to
the input length is always sufficient, and `findMatchesAux_congr` proves
the result independent of the fuel from that point on. -/
def findMatchesAux : ℕ → List Char → List (List Char × List Char)
  | 0, _ => []
  | _, [] => []
  | Nat.succ fuel, c :: rest =>
    match tryTuple (c :: rest) with
    | some (m, r) => m :: findMatchesAux fuel r
    | none => findMatchesAux fuel rest

/-- The list of `(start, end)` capture pairs found in the interior text
(source line 207). -/
def findMatches (cs : List Char) : List (List Char × List Char) :=
  findMatchesAux cs.length cs

/-- Numeric value of a digit character. -/
def digitVal (c : Char) : ℕ := c.toNat - 48

/-- Value of a digit string read in base 10. -/
def natOfDigits (ds : List Char) : ℕ := ds.foldl (fun a c => a * 10 + digitVal c) 0

/-- Python `float()` on the shapes of string the tuple pattern can
capture: an optional sign, then digits with at most one decimal point
(at least one digit overall).  Any other string yields `none`,
modelling the `ValueError` that `float()` raises on it.  Exponent,
infinity and nan forms accepted by `float()` are outside the model: the
capture groups of the pattern can never produce them, and no other
caller reaches this conversion in the source. -/
def ratOfCapture? (cs : List Char) : Option ℚ :=
  let sgn : Bool := match cs with | '-' :: _ => true | _ => false
  let body : List Char := match cs with | '-' :: r => r | _ => cs
  let p := takeDigits body
  match p.2 with
  | [] =>
    if p.1 = [] then none
    else
      let n : ℤ := natOfDigits p.1
      some (mkRat (if sgn then -n else n) 1)
  | '.' :: r2 =>
    let q := takeDigits r2
    if q.2 = [] ∧ (p.1 ≠ [] ∨ q.1 ≠ []) then
      let n : ℤ := natOfDigits p.1 * 10 ^ q.1.length + natOfDigits q.1
      some (mkRat (if sgn then -n else n) (10 ^ q.1.length))
    else none
  | _ => none

/-- The message raised by the `except ValueError` clause at source line
236: it replaces every `ValueError` raised inside the conversion loop,
including the specific semantic-validation errors of lines 227-231. -/
def genericMsg (i : ℕ) (s e : List Char) : String :=
  "Range " ++ toString (i + 1) ++ ": Invalid timestamp values (" ++ String.mk s
    ++ ", " ++ String.mk e ++ "). Must be valid numbers."

/-- Conversion and validation loop of source lines 219-236 over the list
of captured string pairs, carrying the 0-based enumeration index.  A
`float()` failure or any of the three semantic checks raises a
`ValueError` inside the `try`, which the `except` clause of line 235
converts to `genericMsg`. -/
def convertMatches : List (List Char × List Char) → ℕ → Except String (List (ℚ × ℚ))
  | [], _ => .ok []
  | (s, e) :: rest, i =>
    match ratOfCapture? s, ratOfCapture? e with
    | some sv, some ev =>
      if sv < 0 then .error (genericMsg i s e)
      else if ev < 0 then .error (genericMsg i s e)
      else if ev ≤ sv then .error (genericMsg i s e)
      else (convertMatches rest (i + 1)).map (fun l => (sv, ev) :: l)
    | _, _ => .error (genericMsg i s e)

/-- Whether a captured pair passes conversion and the three semantic
checks of lines 221-231, so that the loop continues past it. -/
def pairOk (p : List Char × List Char) : Bool :=
  match ratOfCapture? p.1, ratOfCapture? p.2 with
  | some sv, some ev =>
    if sv < 0 then false
    else if ev < 0 then false
    else if ev ≤ sv then false
    else true
  | _, _ => false

/-- Error message of source line 193. -/
def emptyMsg : String := "Timestamp ranges cannot be empty"

/-- Error message of source line 196. -/
def bracketMsg : String :=
  "Timestamp ranges must be enclosed in square brackets: [(start,end), ...]"

/-- Error message of source line 202. -/
def atLeastOneMsg : String :=
  "At least one timestamp range must be provided inside brackets"

/-- Error message of source line 210. -/
def invalidFmtMsg : String :=
  "Invalid timestamp format. Use: [(start,end), (start,end), ...] with valid numbers"

/-- Error message of source line 216. -/
def malformedMsg : String :=
  "Malformed timestamp ranges. Each range must be in format (start,end)"

/-- Interior text of the bracketed input: `ranges_str[1:-1].strip()`
(source line 199), taken after the outer strip. -/
def innerOf (s : List Char) : List Char :=
  pyTrim (((pyTrim s).drop 1).dropLast)

/-- Count of literal opening parentheses in the interior (source line
214). -/
def countParen (cs : List Char) : ℕ := cs.count '('

/-- Character-level model of `parse_timestamp_ranges` (source lines
172-238). -/
def pyParse (s : List Char) : Except String (List (ℚ × ℚ)) :=
  let t := pyTrim s
  if t = [] then .error emptyMsg
  else if t.head? = some '[' ∧ t.getLast? = some ']' then
    let inner := innerOf s
    if inner = [] then .error atLeastOneMsg
    else
      let ms := findMatches inner
      if ms = [] then .error invalidFmtMsg
      else if ms.length ≠ countParen inner then .error malformedMsg
      else convertMatches ms 0
  else .error bracketMsg

/-- String-level entry point, keeping the source's name. -/
def parse_timestamp_ranges (s : String) : Except String (List (ℚ × ℚ)) :=
  pyParse s.data

/-- Abstract media collaborator seen by `split_and_combine_video`: the
one attribute the core reads (`duration`, source line 124) plus failure
injection for each collaborator call (`subclip`, `concatenate_videoclips`,
`write_videofile`, and the `VideoFileClip` constructor). -/
structure Collab where
  duration : ℚ
  subclipFails : ℕ → Bool
  concatFails : Bool
  writeFails : Bool
  openFails : Bool

/-- Observable collaborator calls made by `split_and_combine_video`, in
program order.  `closeVideo`, `closeFinal` and `closeClip` are the
resource releases of source lines 159-162. -/
inductive Event where
  | openSrc : Event
  | subclip : ℚ → ℚ → Event
  | concat : List (ℚ × ℚ) → Event
  | write : Event
  | closeVideo : Event
  | closeFinal : Event
  | closeClip : ℕ → Event
deriving DecidableEq

/-- Errors surfaced by the orchestrator: `valueError` for the explicit
`raise ValueError` statements, `collabError` for exceptions propagated
from the media collaborator. -/
inductive PyError where
  | valueError : String → PyError
  | collabError : String → PyError
deriving DecidableEq

/-- Whether an event is one of the resource releases of source lines
159-162. -/
def isCloseEv : Event → Bool
  | .closeVideo => true
  | .closeFinal => true
  | .closeClip _ => true
  | _ => false

/-- Per-range extraction loop of source lines 126-139: skip a range whose
start reaches the duration, clamp an end beyond the duration, then call
`subclip`.  Returns the extracted clip list (or the first collaborator
error) together with the trace of `subclip` calls; `k` counts the
`subclip` calls already made, for failure injection. -/
def extractLoop (c : Collab) : List (ℚ × ℚ) → ℕ → Except PyError (List (ℚ × ℚ)) × List Event
  | [], _ => (.ok [], [])
  | (s, e) :: rest, k =>
    if c.duration ≤ s then extractLoop c rest k
    else
      let e2 := if c.duration < e then c.duration else e
      if c.subclipFails k then (.error (.collabError "subclip failed"), [.subclip s e2])
      else
        match extractLoop c rest (k + 1) with
        | (.ok clips, tr) => (.ok ((s, e2) :: clips), .subclip s e2 :: tr)
        | (.error err, tr) => (.error err, .subclip s e2 :: tr)

/-- Message of source line 110. -/
def noRangesMsg : String := "At least one timestamp range must be provided"

/-- Message of source line 142. -/
def noClipsMsg : String := "No valid clips were extracted from the video"

/-- Model of `split_and_combine_video` (source lines 81-169) over the
abstract collaborator, returning the result together with the trace of
collaborator calls.  The `try` block of lines 117-169 re-raises every
exception unchanged after logging; the cleanup calls of lines 159-162
are inside the `try` body after the write, so they are reached only on
the success path — exactly as in the source. -/
def split_and_combine_video (c : Collab) (ranges : List (ℚ × ℚ)) (outputPath : String) :
    Except PyError String × List Event :=
  if ranges = [] then (.error (.valueError noRangesMsg), [])
  else if c.openFails then (.error (.collabError "open failed"), [.openSrc])
  else
    match extractLoop c ranges 0 with
    | (.error err, tr) => (.error err, .openSrc :: tr)
    | (.ok clips, tr) =>
      if clips = [] then (.error (.valueError noClipsMsg), .openSrc :: tr)
      else if c.concatFails then
        (.error (.collabError "concatenate failed"), .openSrc :: (tr ++ [.concat clips]))
      else if c.writeFails then
        (.error (.collabError "write failed"), .openSrc :: (tr ++ [.concat clips, .write]))
      else
        (.ok outputPath,
          .openSrc :: (tr ++ [.concat clips, .write, .closeVideo, .closeFinal]
            ++ (List.range clips.length).map Event.closeClip))

/-- Collaborator with a given duration and no injected failures. -/
def noFailCollab (d : ℚ) : Collab :=
  { duration := d
    subclipFails := fun _ => false
    concatFails := false
    writeFails := false
    openFails := false }

/-- Collaborator whose write step fails (disk full, encoder error, ...). -/
def writeFailCollab (d : ℚ) : Collab :=
  { duration := d
    subclipFails := fun _ => false
    concatFails := false
    writeFails := true
    openFails := false }

/-- Closed form of the skip/clamp pass of source lines 126-139, written
from the words of the spec (section 4.2 step 3) so that it can be
compared with `extractLoop`: drop ranges whose start reaches the
duration, clamp ends to the duration. -/
def clampFilterSpec (d : ℚ) (rs : List (ℚ × ℚ)) : List (ℚ × ℚ) :=
  rs.filterMap fun p => if d ≤ p.1 then none else some (p.1, if d < p.2 then d else p.2)

/-- End-clamping alone, the image of a range list in which every start is
below the duration. -/
def clampAll (d : ℚ) (rs : List (ℚ × ℚ)) : List (ℚ × ℚ) :=
  rs.map fun p => (p.1, if d < p.2 then d else p.2)

example : parse_timestamp_ranges "[(0,10), (20,30), (45,60)]" =
    .ok [(0, 10), (20, 30), (45, 60)] := by decide

example : parse_timestamp_ranges "[(0.5,1.25)]" = .ok [(mkRat 1 2, mkRat 5 4)] := by decide

example : parse_timestamp_ranges "[ ( 0 , 10 ) , ( .5 , 2. ) ]" =
    .ok [(0, 10), (mkRat 1 2, 2)] := by decide

example : split_and_combine_video (noFailCollab 60) [(0, 10), (20, 30), (45, 50)] "o" =
    (.ok "o", [.openSrc, .subclip 0 10, .subclip 20 30, .subclip 45 50,
      .concat [(0, 10), (20, 30), (45, 50)], .write, .closeVideo, .closeFinal,
      .closeClip 0, .closeClip 1, .closeClip 2]) := by decide

theorem dropWhile_len_le (p : Char → Bool) (l : List Char) :
    (l.dropWhile p).length ≤ l.length := by
  induction l with
  | nil => simp [List.dropWhile]
  | cons c rest ih =>
    by_cases h : p c
    · simpa [List.dropWhile, h] using Nat.le_succ_of_le ih
    · simp [List.dropWhile, h]

theorem skipWs_len (cs : List Char) : (skipWs cs).length ≤ cs.length :=
  dropWhile_len_le isWs cs

theorem takeDigits_len (cs : List Char) : (takeDigits cs).2.length ≤ cs.length := by
  induction cs with
  | nil => simp [takeDigits]
  | cons c rest ih =>
    by_cases h : c.isDigit
    · simpa [takeDigits, h] using Nat.le_succ_of_le ih
    · simp [takeDigits, h]

theorem expectChar_len (ch : Char) (cs r : List Char) (h : expectChar ch cs = some r) :
    r.length < cs.length := by
  match cs with
  | [] => simp [expectChar] at h
  | c :: rest =>
    simp only [expectChar] at h
    split at h
    · injection h with h
      subst h
      simp
    · simp at h

theorem numBody_len (cs n r : List Char) (h : numBody cs = some (n, r)) :
    r.length < cs.length := by
  match cs with
  | [] => simp [numBody] at h
  | c :: rest =>
    simp only [numBody] at h
    split at h
    · split at h
      · rename_i r2 heq
        injection h with h
        have h1 : r = (takeDigits r2).2 := (congrArg Prod.snd h).symm
        have h2 : (takeDigits r2).2.length ≤ r2.length := takeDigits_len r2
        have h3 : (takeDigits rest).2.length ≤ rest.length := takeDigits_len rest
        rw [heq] at h3
        simp only [List.length_cons] at h3
        simp only [h1, List.length_cons]
        omega
      · injection h with h
        have h1 : r = (takeDigits rest).2 := (congrArg Prod.snd h).symm
        have h2 : (takeDigits rest).2.length ≤ rest.length := takeDigits_len rest
        simp only [h1, List.length_cons]
        omega
    · split at h
      · split at h
        · simp at h
        · rename_i d rest2
          split at h
          · injection h with h
            have h1 : r = (takeDigits (d :: rest2)).2 := (congrArg Prod.snd h).symm
            have h2 : (takeDigits (d :: rest2)).2.length ≤ (d :: rest2).length :=
              takeDigits_len (d :: rest2)
            simp only [List.length_cons] at h2
            simp only [h1, List.length_cons]
            omega
          · simp at h
      · simp at h

theorem pyNum_len (cs n r : List Char) (h : pyNum cs = some (n, r)) :
    r.length < cs.length := by
  simp only [pyNum] at h
  split at h
  · rename_i rest
    split at h
    · rename_i n2 r2 heq
      injection h with h
      have hr : r = r2 := (congrArg Prod.snd h).symm
      have h2 := numBody_len rest n2 r2 heq
      simp only [hr, List.length_cons]
      omega
    · simp at h
  · exact numBody_len _ _ _ h

theorem tryTuple_len (cs : List Char) (m : List Char × List Char) (r : List Char)
    (h : tryTuple cs = some (m, r)) : r.length < cs.length := by
  simp only [tryTuple, Option.bind_eq_some, Option.map_eq_some'] at h
  obtain ⟨r0, h0, p1, h1, r2, h2, p2, h3, r4, h4, h5⟩ := h
  have l0 := expectChar_len _ _ _ h0
  have l1 := pyNum_len _ p1.1 p1.2 h1
  have l2 := expectChar_len _ _ _ h2
  have l3 := pyNum_len _ p2.1 p2.2 h3
  have l4 := expectChar_len _ _ _ h4
  have s0 := skipWs_len r0
  have s1 := skipWs_len p1.2
  have s2 := skipWs_len r2
  have s3 := skipWs_len p2.2
  have hr : r = r4 := (congrArg Prod.snd h5).symm
  rw [hr]
  omega

theorem findMatchesAux_congr (n : ℕ) :
    ∀ (cs : List Char) (f1 f2 : ℕ), cs.length ≤ n → cs.length ≤ f1 → cs.length ≤ f2 →
      findMatchesAux f1 cs = findMatchesAux f2 cs := by
  induction n with
  | zero =>
    intro cs f1 f2 hn _ _
    have : cs = [] := List.length_eq_zero.mp (Nat.le_zero.mp hn)
    subst this
    cases f1 <;> cases f2 <;> simp [findMatchesAux]
  | succ n ih =>
    intro cs f1 f2 hn h1 h2
    match cs with
    | [] => cases f1 <;> cases f2 <;> simp [findMatchesAux]
    | c :: rest =>
      simp only [List.length_cons] at hn h1 h2
      match f1, f2 with
      | a + 1, b + 1 =>
        simp only [findMatchesAux]
        rcases ht : tryTuple (c :: rest) with _ | ⟨m, r⟩
        · simp only [ht]
          exact ih rest a b (by omega) (by omega) (by omega)
        · simp only [ht]
          have hr := tryTuple_len _ _ _ ht
          simp only [List.length_cons] at hr
          rw [ih r a b (by omega) (by omega) (by omega)]

/-- The fuel in `findMatches` is an implementation device only: any fuel
of at least the input length produces the same match list. -/
theorem findMatches_fuel (cs : List Char) (f : ℕ) (h : cs.length ≤ f) :
    findMatchesAux f cs = findMatches cs :=
  findMatchesAux_congr cs.length cs f cs.length le_rfl h le_rfl

theorem extractLoop_eq (c : Collab) (h : ∀ k, c.subclipFails k = false) :
    ∀ (rs : List (ℚ × ℚ)) (k : ℕ),
      extractLoop c rs k =
        (.ok (clampFilterSpec c.duration rs),
          (clampFilterSpec c.duration rs).map fun p => Event.subclip p.1 p.2) := by
  intro rs
  induction rs with
  | nil => intro k; simp [extractLoop, clampFilterSpec]
  | cons p rest ih =>
    intro k
    obtain ⟨s, e⟩ := p
    by_cases hd : c.duration ≤ s
    · simpa [extractLoop, clampFilterSpec, hd, List.filterMap_cons] using ih k
    · simp [extractLoop, clampFilterSpec, hd, h k, ih (k + 1), List.filterMap_cons]

theorem extractLoop_all_skipped (c : Collab) (rs : List (ℚ × ℚ))
    (h : ∀ p ∈ rs, c.duration ≤ p.1) :
    ∀ k, extractLoop c rs k = (.ok [], []) := by
  induction rs with
  | nil => intro k; simp [extractLoop]
  | cons p rest ih =>
    intro k
    obtain ⟨s, e⟩ := p
    have hs : c.duration ≤ s := h (s, e) (List.mem_cons_self _ _)
    simp only [extractLoop, if_pos hs]
    exact ih (fun q hq => h q (List.mem_cons_of_mem _ hq)) k

theorem extractLoop_no_close (c : Collab) :
    ∀ (rs : List (ℚ × ℚ)) (k : ℕ), ((extractLoop c rs k).2).any isCloseEv = false := by
  intro rs
  induction rs with
  | nil => intro k; simp [extractLoop]
  | cons p rest ih =>
    intro k
    obtain ⟨s, e⟩ := p
    by_cases hd : c.duration ≤ s
    · simpa [extractLoop, hd] using ih k
    · by_cases hf : c.subclipFails k
      · simp [extractLoop, hd, hf, isCloseEv]
      · have hrec := ih (k + 1)
        rcases hE : extractLoop c rest (k + 1) with ⟨res, tr⟩
        rw [hE] at hrec
        simp only at hrec
        cases res <;>
          simp [extractLoop, hd, hf, hE, isCloseEv, List.any_cons, hrec]

theorem clampFilterSpec_cons (d : ℚ) (p : ℚ × ℚ) (rest : List (ℚ × ℚ)) :
    clampFilterSpec d (p :: rest) =
      if d ≤ p.1 then clampFilterSpec d rest
      else (p.1, if d < p.2 then d else p.2) :: clampFilterSpec d rest := by
  by_cases hs : d ≤ p.1
  · simp [clampFilterSpec, List.filterMap_cons, hs]
  · simp [clampFilterSpec, List.filterMap_cons, hs]

theorem clampFilterSpec_of_inbounds (d : ℚ) (rs : List (ℚ × ℚ))
    (h : ∀ p ∈ rs, p.1 < p.2 ∧ p.2 < d) : clampFilterSpec d rs = rs := by
  induction rs with
  | nil => simp [clampFilterSpec]
  | cons p rest ih =>
    obtain ⟨h1, h2⟩ := h p (List.mem_cons_self _ _)
    have hs : ¬ d ≤ p.1 := not_le.mpr (lt_trans h1 h2)
    have he : ¬ d < p.2 := not_lt.mpr (le_of_lt h2)
    have ih2 := ih (fun q hq => h q (List.mem_cons_of_mem _ hq))
    rw [clampFilterSpec_cons, if_neg hs, if_neg he, ih2]

theorem clampFilterSpec_of_startlt (d : ℚ) (rs : List (ℚ × ℚ))
    (h : ∀ p ∈ rs, p.1 < d) : clampFilterSpec d rs = clampAll d rs := by
  induction rs with
  | nil => simp [clampFilterSpec, clampAll]
  | cons p rest ih =>
    have hs : ¬ d ≤ p.1 := not_le.mpr (h p (List.mem_cons_self _ _))
    have ih2 := ih (fun q hq => h q (List.mem_cons_of_mem _ hq))
    rw [clampFilterSpec_cons, if_neg hs, ih2]
    simp [clampAll]

theorem convertMatches_first_bad :
    ∀ (pre : List (List Char × List Char)) (k : ℕ) (s e : List Char)
      (suffix : List (List Char × List Char)),
      (∀ p ∈ pre, pairOk p = true) →
      (ratOfCapture? s = none ∨ ratOfCapture? e = none) →
      convertMatches (pre ++ (s, e) :: suffix) k = .error (genericMsg (k + pre.length) s e) := by
  intro pre
  induction pre with
  | nil =>
    intro k s e suffix _ hbad
    rcases hbad with hb | hb
    · simp [convertMatches, hb]
    · cases hs : ratOfCapture? s <;> simp [convertMatches, hs, hb]
  | cons q pre ih =>
    intro k s e suffix hpre hbad
    have hq := hpre q (List.mem_cons_self _ _)
    obtain ⟨qs, qe⟩ := q
    rcases hqs : ratOfCapture? qs with _ | sv
    · simp [pairOk, hqs] at hq
    · rcases hqe : ratOfCapture? qe with _ | ev
      · simp [pairOk, hqs, hqe] at hq
      · simp only [pairOk, hqs, hqe] at hq
        by_cases c1 : sv < 0
        · simp [c1] at hq
        · by_cases c2 : ev < 0
          · simp [c1, c2] at hq
          · by_cases c3 : ev ≤ sv
            · simp [c1, c2, c3] at hq
            · have hrec := ih (k + 1) s e suffix
                (fun p hp => hpre p (List.mem_cons_of_mem _ hp)) hbad
              have harith : k + ((qs, qe) :: pre).length = k + 1 + pre.length := by
                simp only [List.length_cons]
                omega
              rw [harith, List.cons_append]
              simp [convertMatches, hqs, hqe, c1, c2, c3, hrec, Except.map]

theorem split_error_no_close (c : Collab) (rs : List (ℚ × ℚ)) (out : String) (err : PyError)
    (h : (split_and_combine_video c rs out).1 = .error err) :
    ((split_and_combine_video c rs out).2).any isCloseEv = false := by
  by_cases h1 : rs = []
  · simp [split_and_combine_video, h1]
  · by_cases h2 : c.openFails
    · simp [split_and_combine_video, h1, h2, isCloseEv]
    · have hE0 := extractLoop_no_close c rs 0
      rcases hE : extractLoop c rs 0 with ⟨res, trE⟩
      rw [hE] at hE0
      simp only at hE0
      cases res with
      | error e2 =>
        simp [split_and_combine_video, h1, h2, hE, isCloseEv, List.any_cons, hE0]
      | ok clips =>
        by_cases h3 : clips = []
        · simp [split_and_combine_video, h1, h2, hE, h3, isCloseEv, List.any_cons, hE0]
        · by_cases h4 : c.concatFails
          · simp [split_and_combine_video, h1, h2, hE, h3, h4, isCloseEv,
              List.any_cons, List.any_append, hE0]
          · by_cases h5 : c.writeFails
            · simp [split_and_combine_video, h1, h2, hE, h3, h4, h5, isCloseEv,
                List.any_cons, List.any_append, hE0]
            · simp [split_and_combine_video, h1, h2, hE, h3, h4, h5] at h

theorem release_on_error_none (c : Collab) (rs : List (ℚ × ℚ)) (out : String) :
    ∀ err tr, split_and_combine_video c rs out = (.error err, tr) →
      tr.any isCloseEv = false := by
  intro err tr h
  have hfst : (split_and_combine_video c rs out).1 = .error err := by rw [h]
  have hsnd : (split_and_combine_video c rs out).2 = tr := by rw [h]
  rw [← hsnd]
  exact split_error_no_close c rs out err hfst

/-- C1 (counterexample): with a 60-second source and the single range
`(0, 10)`, a failing write step makes `split_and_combine_video` open the
source, extract one segment, concatenate, attempt the write, and then
propagate the error with no release event whatsoever in the trace — the
source handle, the segment and the concatenated artifact all stay
unreleased, contradicting the claim that every exit path releases all
acquired resources. -/
theorem release_missing_on_write_failure :
    split_and_combine_video (writeFailCollab 60) [((0 : ℚ), (10 : ℚ))] "output_combined.mp4" =
      (.error (.collabError "write failed"),
        [.openSrc, .subclip 0 10, .concat [(0, 10)], .write])
    ∧ ([Event.openSrc, .subclip 0 10, .concat [(0, 10)], .write].any isCloseEv = false)
    ∧ Event.openSrc ∈ [Event.openSrc, Event.subclip 0 10, Event.concat [(0, 10)], Event.write] := by
  refine ⟨by decide, by decide, by decide⟩

/-- C1 (amended): resources are released only on the successful exit
path.  Whenever `split_and_combine_video` returns successfully its trace
ends with the release of the source handle, the concatenated artifact
and every extracted segment; whenever it propagates an error, the trace
contains no release event at all. -/
theorem release_success_only (c : Collab) (rs : List (ℚ × ℚ)) (out : String) :
    (∀ r tr, split_and_combine_video c rs out = (.ok r, tr) →
      ∃ clips tr0, tr = .openSrc :: (tr0 ++ [Event.concat clips, .write, .closeVideo, .closeFinal]
        ++ (List.range clips.length).map Event.closeClip))
    ∧ (∀ err tr, split_and_combine_video c rs out = (.error err, tr) →
      tr.any isCloseEv = false) := by
  refine ⟨?_, release_on_error_none c rs out⟩
  intro r tr h
  by_cases h1 : rs = []
  · simp [split_and_combine_video, h1] at h
  · by_cases h2 : c.openFails
    · simp [split_and_combine_video, h1, h2] at h
    · rcases hE : extractLoop c rs 0 with ⟨res, trE⟩
      cases res with
      | error e2 => simp [split_and_combine_video, h1, h2, hE] at h
      | ok clips =>
        by_cases h3 : clips = []
        · simp [split_and_combine_video, h1, h2, hE, h3] at h
        · by_cases h4 : c.concatFails
          · simp [split_and_combine_video, h1, h2, hE, h3, h4] at h
          · by_cases h5 : c.writeFails
            · simp [split_and_combine_video, h1, h2, hE, h3, h4, h5] at h
            · have hsp : split_and_combine_video c rs out =
                  (.ok out, .openSrc :: (trE ++ [.concat clips, .write, .closeVideo, .closeFinal]
                    ++ (List.range clips.length).map Event.closeClip)) := by
                simp [split_and_combine_video, h1, h2, hE, h3, h4, h5]
              rw [hsp] at h
              injection h with ha hb
              exact ⟨clips, trE, hb.symm⟩

/-- C1 (witness for the amended theorem): a successful run on a
60-second source with the single range `(0, 10)` has the release-tail
shape guaranteed by `release_success_only`. -/
theorem release_success_only_witness :
    ∃ clips tr0,
      (split_and_combine_video (noFailCollab 60) [((0 : ℚ), (10 : ℚ))] "o").2 =
        Event.openSrc :: (tr0 ++ [Event.concat clips, .write, .closeVideo, .closeFinal]
          ++ (List.range clips.length).map Event.closeClip) :=
  (release_success_only (noFailCollab 60) [(0, 10)] "o").1 "o"
    (split_and_combine_video (noFailCollab 60) [(0, 10)] "o").2 (by decide)

/-- C2: on the input `[(-1,5)]` — negative start — and on `[(10,5)]` —
start not below end — the parser does fail, but with the generic message
of source line 236 (claiming the values are not valid numbers), because
the `except ValueError` clause catches and replaces the specific
"cannot be negative" and "must be less than end" errors constructed at
lines 227-231.  The claim that the surfaced error names the violated
constraint is therefore right about the intent and wrong about the
code. -/
theorem semantic_error_message_masked :
    parse_timestamp_ranges "[(-1,5)]" =
      .error "Range 1: Invalid timestamp values (-1, 5). Must be valid numbers."
    ∧ parse_timestamp_ranges "[(10,5)]" =
      .error "Range 1: Invalid timestamp values (10, 5). Must be valid numbers." := by
  refine ⟨by decide, by decide⟩

/-- C3: when no collaborator failure is injected, the per-range pass
equals the spec's single-pass skip/clamp policy: ranges starting at or
beyond the duration are dropped, ends beyond the duration are clamped,
everything else is extracted in order; in particular a range
`(5, duration+100)` on a source longer than 5 seconds yields the single
segment `(5, duration)` rather than an error. -/
theorem skip_and_clamp_policy (c : Collab) (h : ∀ k, c.subclipFails k = false) :
    (∀ (rs : List (ℚ × ℚ)) (k : ℕ),
      extractLoop c rs k =
        (.ok (clampFilterSpec c.duration rs),
          (clampFilterSpec c.duration rs).map fun p => Event.subclip p.1 p.2))
    ∧ (5 < c.duration →
        clampFilterSpec c.duration [(5, c.duration + 100)] = [(5, c.duration)]) := by
  refine ⟨extractLoop_eq c h, fun h5 => ?_⟩
  have h1 : ¬ c.duration ≤ (5 : ℚ) := not_le.mpr h5
  have h2 : c.duration < c.duration + 100 := by linarith
  simp [clampFilterSpec, h1, h2]

/-- C3 (witness): on a 60-second source, `(5, 160)` is extracted as the
single clamped segment `(5, 60)`. -/
theorem skip_and_clamp_policy_witness :
    extractLoop (noFailCollab 60) [((5 : ℚ), (160 : ℚ))] 0 =
      (.ok [((5 : ℚ), (60 : ℚ))], [.subclip 5 60])
    ∧ clampFilterSpec (noFailCollab 60).duration
        [(5, (noFailCollab 60).duration + 100)] = [(5, (noFailCollab 60).duration)] := by
  have h := skip_and_clamp_policy (noFailCollab 60) (fun _ => rfl)
  refine ⟨?_, h.2 (by decide)⟩
  rw [h.1 [(5, 160)] 0]
  decide

/-- C4: if every range starts at or beyond the source duration, the
whole pass extracts nothing and `split_and_combine_video` fails with the
"no valid clips" error right after probing the source, producing no
output. -/
theorem no_valid_clips_failure (c : Collab) (rs : List (ℚ × ℚ)) (out : String)
    (h1 : rs ≠ []) (h2 : c.openFails = false) (h3 : ∀ p ∈ rs, c.duration ≤ p.1) :
    split_and_combine_video c rs out = (.error (.valueError noClipsMsg), [.openSrc]) := by
  have hE := extractLoop_all_skipped c rs h3 0
  simp [split_and_combine_video, h1, h2, hE]

/-- C4 (witness): the single range `(61, 70)` on a 60-second source —
that is, `(duration+1, duration+10)` — triggers the "no valid clips"
failure. -/
theorem no_valid_clips_failure_witness :
    split_and_combine_video (noFailCollab 60) [((61 : ℚ), (70 : ℚ))] "o" =
      (.error (.valueError noClipsMsg), [.openSrc]) :=
  no_valid_clips_failure (noFailCollab 60) [(61, 70)] "o" (by decide) rfl (by decide)

/-- C5: for a non-empty range list lying strictly inside
`[0, duration)`, a failure-free run extracts exactly one segment per
range, in exactly the input order and with both endpoints unchanged, and
concatenates exactly that list — no skip, no clamp, no reordering,
deduplication or merging. -/
theorem order_preserving_extraction (c : Collab) (rs : List (ℚ × ℚ)) (out : String)
    (h1 : rs ≠ []) (h2 : c.openFails = false) (h3 : ∀ k, c.subclipFails k = false)
    (h4 : c.concatFails = false) (h5 : c.writeFails = false)
    (h6 : ∀ p ∈ rs, 0 ≤ p.1 ∧ p.1 < p.2 ∧ p.2 < c.duration) :
    split_and_combine_video c rs out =
      (.ok out, .openSrc :: ((rs.map fun p => Event.subclip p.1 p.2)
        ++ [.concat rs, .write, .closeVideo, .closeFinal]
        ++ (List.range rs.length).map Event.closeClip)) := by
  have hid : clampFilterSpec c.duration rs = rs :=
    clampFilterSpec_of_inbounds c.duration rs (fun p hp => (h6 p hp).2)
  have hE := extractLoop_eq c h3 rs 0
  rw [hid] at hE
  simp [split_and_combine_video, h1, h2, h4, h5, hE]

/-- C5 (witness): the out-of-order ranges `[(10, 20), (0, 5)]` on a
60-second source are extracted and concatenated in exactly that order,
not sorted by start time. -/
theorem order_preserving_extraction_witness :
    split_and_combine_video (noFailCollab 60) [((10 : ℚ), (20 : ℚ)), ((0 : ℚ), (5 : ℚ))] "o" =
      (.ok "o", [.openSrc, .subclip 10 20, .subclip 0 5, .concat [(10, 20), (0, 5)],
        .write, .closeVideo, .closeFinal, .closeClip 0, .closeClip 1]) := by
  rw [order_preserving_extraction (noFailCollab 60) [(10, 20), (0, 5)] "o"
    (by decide) rfl (fun _ => rfl) rfl rfl (by decide)]
  decide

/-- C6 (counterexample): the bracketed input `[(bad)]` has one literal
opening parenthesis in its interior and zero recognized matches — fewer
matches than parentheses — yet the parser fails with the
invalid-format error of source line 210, not the malformed-range error
of line 216, because the empty-match check comes first. -/
theorem malformed_error_zero_match_counterexample :
    countParen (innerOf ("[(bad)]".data)) = 1
    ∧ findMatches (innerOf ("[(bad)]".data)) = []
    ∧ parse_timestamp_ranges "[(bad)]" = .error invalidFmtMsg
    ∧ invalidFmtMsg ≠ malformedMsg := by
  refine ⟨by decide, by decide, by decide, by decide⟩

/-- C6 (amended): a bracketed input whose non-empty interior yields
fewer recognized `(number,number)` matches than it has literal `(`
characters always fails rather than silently dropping the unmatched
tuple: with the malformed-range error when at least one match was
found, and with the invalid-format error when none was. -/
theorem malformed_or_invalid_on_missing_tuple (s : List Char)
    (hbr : (pyTrim s).head? = some '[' ∧ (pyTrim s).getLast? = some ']')
    (hin : innerOf s ≠ [])
    (hlt : (findMatches (innerOf s)).length < countParen (innerOf s)) :
    (findMatches (innerOf s) = [] → pyParse s = .error invalidFmtMsg)
    ∧ (findMatches (innerOf s) ≠ [] → pyParse s = .error malformedMsg) := by
  have ht : pyTrim s ≠ [] := by
    intro hnil
    rw [hnil] at hbr
    simp at hbr
  have hne : (findMatches (innerOf s)).length ≠ countParen (innerOf s) := Nat.ne_of_lt hlt
  constructor
  · intro hm
    simp [pyParse, ht, hbr.1, hbr.2, hin, hm]
  · intro hm
    simp [pyParse, ht, hbr.1, hbr.2, hin, hm, hne]

/-- C6 (witness): `[(0,10),(bad)]` — two opening parentheses, one
recognized match — fails with the malformed-range error. -/
theorem malformed_or_invalid_on_missing_tuple_witness :
    pyParse ("[(0,10),(bad)]".data) = .error malformedMsg :=
  (malformed_or_invalid_on_missing_tuple ("[(0,10),(bad)]".data)
    ⟨by decide, by decide⟩ (by decide) (by decide)).2 (by decide)

/-- C7: in the conversion loop, if every pair before position `i`
(0-based) converts and validates but at position `i` a captured
substring fails to parse as a number, the loop fails at once with the
error carrying the 1-indexed position `i+1` and the offending pair's
text, whatever pairs follow — the result is the same for every
suffix, so no later pair is examined.  (In the full parser this
condition is reachable only through this loop: the regex guarantees
that the captures it produces always parse.) -/
theorem conversion_fails_immediately (pre suffix : List (List Char × List Char))
    (s e : List Char)
    (hpre : ∀ p ∈ pre, pairOk p = true)
    (hbad : ratOfCapture? s = none ∨ ratOfCapture? e = none) :
    convertMatches (pre ++ (s, e) :: suffix) 0 = .error (genericMsg pre.length s e) := by
  have h := convertMatches_first_bad pre 0 s e suffix hpre hbad
  simpa using h

/-- C7 (witness): with the valid pair `("0","10")` first, the
unparseable pair `("bad","5")` at 0-based position 1 produces the error
message indexed 2, independently of the valid pair `("7","8")` that
follows. -/
theorem conversion_fails_immediately_witness :
    convertMatches [("0".data, "10".data), ("bad".data, "5".data), ("7".data, "8".data)] 0 =
      .error (genericMsg 1 ("bad".data) ("5".data)) := by
  have h := conversion_fails_immediately [("0".data, "10".data)] [("7".data, "8".data)]
    ("bad".data) ("5".data) (by decide) (Or.inl (by decide))
  simpa using h

/-- C8 (counterexample): the whitespace-only input `"   "` trims to the
empty string, which does not start with `[` and end with `]`, yet the
parser fails with the distinct "cannot be empty" error of source line
193, not the enclosed-in-brackets error the claim requires for every
such input. -/
theorem bracket_error_empty_input_counterexample :
    ¬ ((pyTrim ("   ".data)).head? = some '[' ∧ (pyTrim ("   ".data)).getLast? = some ']')
    ∧ parse_timestamp_ranges "   " = .error emptyMsg
    ∧ emptyMsg ≠ bracketMsg := by
  refine ⟨by decide, by decide, by decide⟩

/-- C8 (amended): the parser fails with the distinct "at least one
range" error when the trimmed input is bracketed but its interior is
empty or whitespace-only, with the distinct enclosed-in-brackets error
when the trimmed input is non-empty and does not both start with `[`
and end with `]`, and (separately) a whitespace-only input fails with
the distinct "cannot be empty" error shown in the counterexample. -/
theorem distinct_bracket_and_empty_interior_errors (s : List Char) :
    ((pyTrim s ≠ [] ∧ ¬ ((pyTrim s).head? = some '[' ∧ (pyTrim s).getLast? = some ']')) →
      pyParse s = .error bracketMsg)
    ∧ (((pyTrim s).head? = some '[' ∧ (pyTrim s).getLast? = some ']') ∧ innerOf s = [] →
      pyParse s = .error atLeastOneMsg) := by
  constructor
  · rintro ⟨h1, h2⟩
    simp [pyParse, h1, h2]
  · rintro ⟨hbr, hin⟩
    have ht : pyTrim s ≠ [] := by
      intro hnil
      rw [hnil] at hbr
      simp at hbr
    simp [pyParse, ht, hbr.1, hbr.2, hin]

/-- C8 (witness): `"(0,10)"` gets the bracket error and `"[]"` gets the
at-least-one-range error, and the two messages are distinct. -/
theorem distinct_bracket_and_empty_interior_errors_witness :
    pyParse ("(0,10)".data) = .error bracketMsg
    ∧ pyParse ("[]".data) = .error atLeastOneMsg :=
  ⟨(distinct_bracket_and_empty_interior_errors ("(0,10)".data)).1 ⟨by decide, by decide⟩,
   (distinct_bracket_and_empty_interior_errors ("[]".data)).2 ⟨⟨by decide, by decide⟩, by decide⟩⟩

/-- C9: `split_and_combine_video` performs no semantic validation of the
range values themselves: for any non-empty list of numeric pairs in
which every start is below the duration, a failure-free run forwards
every pair to `subclip` unchanged apart from end-clamping — ranges with
a negative start or with start not below end included — and succeeds.
(The non-emptiness and pair-of-numbers checks of source lines 109-115
are the only list validations; the latter is structural in this typed
embedding.) -/
theorem ranges_forwarded_unvalidated (c : Collab) (rs : List (ℚ × ℚ)) (out : String)
    (h1 : rs ≠ []) (h2 : c.openFails = false) (h3 : ∀ k, c.subclipFails k = false)
    (h4 : c.concatFails = false) (h5 : c.writeFails = false)
    (h6 : ∀ p ∈ rs, p.1 < c.duration) :
    split_and_combine_video c rs out =
      (.ok out, .openSrc :: (((clampAll c.duration rs).map fun p => Event.subclip p.1 p.2)
        ++ [.concat (clampAll c.duration rs), .write, .closeVideo, .closeFinal]
        ++ (List.range (clampAll c.duration rs).length).map Event.closeClip)) := by
  have hmap : clampFilterSpec c.duration rs = clampAll c.duration rs :=
    clampFilterSpec_of_startlt c.duration rs h6
  have hne : clampAll c.duration rs ≠ [] := by
    simp [clampAll, List.map_eq_nil_iff]
    exact h1
  have hE := extractLoop_eq c h3 rs 0
  rw [hmap] at hE
  simp [split_and_combine_video, h1, h2, h4, h5, hE, hne]

/-- C9 (witness): the pairs `(-5, 3)` — negative start — and `(10, 5)` —
start above end — are both forwarded to `subclip` unchanged on a
60-second source, and the run succeeds. -/
theorem ranges_forwarded_unvalidated_witness :
    split_and_combine_video (noFailCollab 60) [((-5 : ℚ), (3 : ℚ)), ((10 : ℚ), (5 : ℚ))] "o" =
      (.ok "o", [.openSrc, .subclip (-5) 3, .subclip 10 5, .concat [(-5, 3), (10, 5)],
        .write, .closeVideo, .closeFinal, .closeClip 0, .closeClip 1]) := by
  rw [ranges_forwarded_unvalidated (noFailCollab 60) [(-5, 3), (10, 5)] "o"
    (by decide) rfl (fun _ => rfl) rfl rfl (by decide)]
  decide

/-- C10: the bracketed input `[(0,10) garbage]`, whose interior holds
one valid tuple followed by extra text containing no `(` character,
parses successfully to exactly the matched tuple, silently ignoring the
extra interior text. -/
theorem extra_interior_text_ignored :
    parse_timestamp_ranges "[(0,10) garbage]" = .ok [(0, 10)]
    ∧ countParen (innerOf ("[(0,10) garbage]".data)) = 1 := by
  refine ⟨by decide, by decide⟩
